import Mathlib

/-!
Verification development for the Simple-Game-Mapper storage subsystem
(`gamemapper/storage.py`): the per-tile entity `TileData`, the save payload
`MapSaveData` with its validator `verify_save_state`, the runtime state
`RamData`, and the `SaveManager` transcoding (`ram_to_disk` / `disk_to_ram`).

The Python code manipulates loosely typed YAML data (dictionaries, lists,
ints, bools, strings, string sets, None).  We embed those dynamic values as
the inductive type `Value` below, and translate each Python method into a
pure Lean function over `Value`-typed structures.  Statements that can raise
a Python exception (`AttributeError` on `.get` of a non-dict, `KeyError` on
a missing mandatory key, `TypeError` on an order comparison of non-numbers
or on calling an unbound accessor) are translated into `Option`-returning
functions where `none` models the propagating exception.
-/

namespace SGM

/-- A dynamic (Python/YAML) value: int, bool, str, list, dict with string
keys, set of strings (the only sets the program builds are sets of
single-letter strings), or `None` (written `null` here). -/
inductive Value where
  | int (n : Int)
  | bool (b : Bool)
  | str (s : String)
  | list (vs : List Value)
  | dict (kvs : List (String × Value))
  | set (vs : List String)
  | null

/-- Python truthiness: zero, empty containers, empty string and `None` are
falsy, everything else is truthy. -/
def Value.truthy : Value → Bool
  | .int n => n != 0
  | .bool b => b
  | .str s => s != ""
  | .list vs => !vs.isEmpty
  | .dict kvs => !kvs.isEmpty
  | .set vs => !vs.isEmpty
  | .null => false

/-- A Python dict with string keys, in insertion order.  Python dicts never
hold a key twice; every dict the program builds or reads satisfies this. -/
abbrev Dict := List (String × Value)

/-- The `state.get(key, default)` on a Python dict. -/
def dget (kvs : Dict) (key : String) (default : Value) : Value :=
  match kvs.find? (fun p => p.1 == key) with
  | some p => p.2
  | Option.none => default

/-- The `key in state` on a Python dict. -/
def hasKey (kvs : Dict) (key : String) : Bool :=
  (kvs.find? (fun p => p.1 == key)).isSome

/-- Python dict assignment `d[key] = v`: overwrite in place when the key is
present, append otherwise. -/
def dictSet {α : Type} (kvs : List (String × α)) (key : String) (v : α) :
    List (String × α) :=
  match kvs with
  | [] => [(key, v)]
  | p :: rest => if p.1 = key then (key, v) :: rest else p :: dictSet rest key v

/-- Python dict lookup `d[key]` as an `Option` (`none` = `KeyError`). -/
def dictFind {α : Type} (kvs : List (String × α)) (key : String) : Option α :=
  (kvs.find? (fun p => p.1 == key)).map Prod.snd

/-- The `isinstance(v, int)` — Python `bool` is a subclass of `int`, so boolean
values pass this check too. -/
def Value.isInstInt : Value → Bool
  | .int _ => true
  | .bool _ => true
  | _ => false

/-- The `isinstance(v, list)`. -/
def Value.isInstList : Value → Bool
  | .list _ => true
  | _ => false

/-- The `isinstance(v, dict)`. -/
def Value.isInstDict : Value → Bool
  | .dict _ => true
  | _ => false

/-- Numeric value of an int-like Python value (`True` counts as 1, `False`
as 0).  Only meaningful on values passing `isInstInt`; other constructors
are mapped to 0 (in the embedded code such a value never reaches a
comparison, because the preceding `isinstance` assertion already failed). -/
def Value.asInt : Value → Int
  | .int n => n
  | .bool b => if b then 1 else 0
  | _ => 0

/-- Elements of a Python list value (only applied after an `isinstance`
check has established that the value is a list). -/
def Value.elems : Value → List Value
  | .list vs => vs
  | _ => []

/-- Python order comparison `a < b` for the save data: defined on numbers
(ints and bools), a `TypeError` (`none`) otherwise. -/
def Value.ltNum : Value → Value → Option Bool
  | .int a, .int b => some (decide (a < b))
  | .int a, .bool b => some (decide (a < (Value.bool b).asInt))
  | .bool a, .int b => some (decide ((Value.bool a).asInt < b))
  | .bool a, .bool b => some (decide ((Value.bool a).asInt < (Value.bool b).asInt))
  | _, _ => Option.none

/-- Python order comparison `a > b` for the save data, as `ltNum`. -/
def Value.gtNum (a b : Value) : Option Bool := Value.ltNum b a

/-- The `TileData` (storage.py:130): per-tile entity.  The Python constructor
and `from_dict` store whatever dynamic value the record supplies, so every
field is a `Value`. -/
structure TileData where
  x : Value
  y : Value
  tags : Value
  enabled : Value
  texture : Value

/-- The field initialisation of `TileData.__init__` (before the optional
`from_dict` call): `x`, `y` and `enabled` from the parameters, `tags` a
fresh empty set, `texture` the empty string.  The Python parameter defaults
are `x=0`, `y=0`, `enabled=False`. -/
def TileData.base (x y enabled : Value) : TileData :=
  { x := x, y := y, tags := .set [], enabled := enabled, texture := .str "" }

/-- The `TileData(x, y)` as constructed by the GUI for a brand-new tile
(mapper_gui.py:524): `enabled` takes its parameter default `False` and no
record is supplied. -/
def TileData.new (x y : Value) : TileData :=
  TileData.base x y (.bool false)

/-- The `TileData.from_dict` (storage.py:162): populate all five fields from a
record, with defaults `x→0`, `y→0`, `enabled→True`, `tags→set()`,
`texture→""` for missing keys. -/
def TileData.from_dict (_t : TileData) (state : Dict) : TileData :=
  { x := dget state "x" (.int 0),
    y := dget state "y" (.int 0),
    enabled := dget state "enabled" (.bool true),
    tags := dget state "tags" (.set []),
    texture := dget state "texture" (.str "") }

/-- The `TileData.__init__` with an explicit `state` argument: build the field
defaults, then `if state: self.from_dict(state)`.  A truthy non-dict state
makes `state.get` raise `AttributeError` (`none`). -/
def TileData.init (x y enabled : Value) (state : Value) : Option TileData :=
  let t := TileData.base x y enabled
  if state.truthy then
    match state with
    | .dict kvs => some (t.from_dict kvs)
    | _ => Option.none
  else some t

/-- The `TileData(state=raw)` as called from `MapSaveData.from_dict`
(storage.py:275): coordinate parameters left at their defaults. -/
def TileData.ofState (state : Value) : Option TileData :=
  TileData.init (.int 0) (.int 0) (.bool false) state

/-- The `TileData.to_dict` (storage.py:175). -/
def TileData.to_dict (t : TileData) : Dict :=
  [("x", t.x), ("y", t.y), ("enabled", t.enabled), ("tags", t.tags),
   ("texture", t.texture)]

/-- One step of `TileData.apply_letter_tags` (storage.py:156-160): toggle a
single tag in a string set (remove when present, add when absent). -/
def toggleTag (tags : List String) (tag : String) : List String :=
  if tag ∈ tags then tags.erase tag else tags ++ [tag]

/-- The loop of `TileData.apply_letter_tags` over the iterated letters, on
the underlying string set. -/
def applyLetterTagsList (tags : List String) (input : List String) : List String :=
  input.foldl toggleTag tags

/-- The `TileData.apply_letter_tags` (storage.py:149): toggles each input letter
in `self.tags`.  `self.tags` must be a set for `set.add` to exist; on any
other dynamic value the Python call raises (`none`). -/
def TileData.apply_letter_tags (t : TileData) (input : List String) :
    Option TileData :=
  match t.tags with
  | .set ts => some { t with tags := .set (applyLetterTagsList ts input) }
  | _ => Option.none

/-- The `verify_save_state` (storage.py:309): a sequence of `assert` statements
checking that the optional top-level fields, when present, have the expected
types and that `x_start <= x_end` and `y_start <= y_end`; missing fields are
replaced by their defaults before checking.  The conjunction of the asserts
equals the function's Boolean result (an early failing assert returns
`False`, matching the short-circuit of `&&`). -/
def verify_save_state (state : Dict) : Bool :=
  (dget state "tiles" (.list [])).isInstList &&
  (dget state "symbols" (.dict [])).isInstDict &&
  (dget state "x_start" (.int 0)).isInstInt &&
  (dget state "x_end" (.int 0)).isInstInt &&
  (dget state "y_start" (.int 0)).isInstInt &&
  (dget state "y_end" (.int 0)).isInstInt &&
  decide ((dget state "x_start" (.int 0)).asInt ≤ (dget state "x_end" (.int 0)).asInt) &&
  decide ((dget state "y_start" (.int 0)).asInt ≤ (dget state "y_end" (.int 0)).asInt)

/-- Decimal digit characters (only ever applied to `n % 10`). -/
def digitChar : Nat → Char
  | 0 => '0' | 1 => '1' | 2 => '2' | 3 => '3' | 4 => '4'
  | 5 => '5' | 6 => '6' | 7 => '7' | 8 => '8' | 9 => '9'
  | _ => '*'

/-- Little-endian decimal digits of `n`; the first argument is structural
fuel (`fuel ≥ n` is always enough, since `n / 10 < n` for `n > 0`). -/
def natDigitsLE : Nat → Nat → List Char
  | _, 0 => []
  | 0, _ => []
  | fuel + 1, n + 1 => digitChar ((n + 1) % 10) :: natDigitsLE fuel ((n + 1) / 10)

/-- Python `str` of a natural number: usual decimal notation, most
significant digit first, `"0"` for zero. -/
def pyNatRepr (n : Nat) : String :=
  if n = 0 then "0" else ((natDigitsLE n n).reverse).asString

/-- Python `str` of an int: decimal, with a leading `-` for negatives. -/
def pyIntRepr (i : Int) : String :=
  if i < 0 then "-" ++ pyNatRepr i.natAbs else pyNatRepr i.toNat

/-- Python `repr` of the string elements of a set literal, joined by
`", "`.  (Exact for strings without quote/backslash characters; the tag
strings the program handles are single letters.) -/
def pyReprStrs : List String → String
  | [] => ""
  | [s] => "'" ++ s ++ "'"
  | s :: t :: ss => "'" ++ s ++ "', " ++ pyReprStrs (t :: ss)

mutual

/-- Python `repr` of a dynamic value.  (Exact for ints, bools, `None` and
containers of those; for strings it is exact when the string contains no
quote/backslash escapes, which is all this program ever prints.) -/
def Value.pyRepr : Value → String
  | .int n => pyIntRepr n
  | .bool b => cond b "True" "False"
  | .str s => "'" ++ s ++ "'"
  | .null => "None"
  | .list vs => "[" ++ pyReprList vs ++ "]"
  | .dict kvs => "\x7b" ++ pyReprDict kvs ++ "\x7d"
  | .set [] => "set()"
  | .set (v :: vs) => "\x7b" ++ pyReprStrs (v :: vs) ++ "\x7d"

/-- The `repr` of list elements joined by `", "`. -/
def pyReprList : List Value → String
  | [] => ""
  | [v] => v.pyRepr
  | v :: w :: vs => v.pyRepr ++ ", " ++ pyReprList (w :: vs)

/-- The `repr` of dict entries joined by `", "`. -/
def pyReprDict : List (String × Value) → String
  | [] => ""
  | [(k, v)] => "'" ++ k ++ "': " ++ v.pyRepr
  | (k, v) :: p :: ps => "'" ++ k ++ "': " ++ v.pyRepr ++ ", " ++ pyReprDict (p :: ps)

end

/-- Python `str()` of a dynamic value, as used by an f-string: like `repr`
except that strings are interpolated without quotes. -/
def Value.pyStr (v : Value) : String :=
  match v with
  | .str s => s
  | _ => v.pyRepr

/-- The `SymbolData` (storage.py:183): a legend entry.  The live accessor
`_get_value_func` (a zero-argument closure reading a UI entry) is modelled
by an `Option String`: `none` means no accessor was bound, `some v` means a
bound accessor currently returning `v`. -/
structure SymbolData where
  character : String
  default_value : Value
  get_value_func : Option String

/-- Field initialisation of `SymbolData.__init__` (the Python parameter
default for `character` is `"a"`): empty default value, unbound accessor. -/
def SymbolData.base (character : String) : SymbolData :=
  { character := character, default_value := .str "", get_value_func := Option.none }

/-- The `SymbolData.from_dict` (storage.py:207): `self.default_value =
state["value"]` — the key is mandatory, a missing key raises `KeyError`
(`none`). -/
def SymbolData.from_dict (s : SymbolData) (state : Dict) : Option SymbolData :=
  (dictFind state "value").map fun v => { s with default_value := v }

/-- The `SymbolData.__init__` with an explicit `state`: defaults, then
`if state: self.from_dict(state)`; indexing a truthy non-dict state raises
(`none`). -/
def SymbolData.init (character : String) (state : Value) : Option SymbolData :=
  let s := SymbolData.base character
  if state.truthy then
    match state with
    | .dict kvs => s.from_dict kvs
    | _ => Option.none
  else some s

/-- The `SymbolData.get_value` (storage.py:225): calls the bound accessor;
calling an unbound (`None`) accessor raises (`none`). -/
def SymbolData.get_value (s : SymbolData) : Option String :=
  s.get_value_func

/-- The `SymbolData.to_dict` (storage.py:198): `{"value": self.get_value()}`. -/
def SymbolData.to_dict (s : SymbolData) : Option Dict :=
  s.get_value.map fun v => [("value", .str v)]

/-- Name of the dummy texture (storage.py:11). -/
def EMPTY_TEXTURE : String := "Empty"

/-- The `BASE_TEXTURE_CSS.format(class_name, path, extra_css)` (storage.py:15):
the CSS template with the three placeholders substituted and the doubled
braces collapsed to literal braces. -/
def baseTextureCss (a b c : String) : String :=
  "\n." ++ a ++ " \x7b \n     background-color: @unfocused_borders;\n" ++
  "     background-image: url(\"" ++ b ++ "\");\n" ++
  "     background-repeat: no-repeat;\n     background-size: cover;\n" ++
  "     background-position: center;\n     " ++ c ++ "\n\x7d\n"

/-- The `TextureData` (storage.py:233). -/
structure TextureData where
  name : String
  class_name : String
  path : String
  css : String

/-- The `TextureData.__init__` (storage.py:234): derived class name (spaces
stripped, `texture_` prefixed) and formatted CSS. -/
def TextureData.init (name image_path extra_css : String) : TextureData :=
  let cn := "texture_" ++ (name.replace " " "")
  { name := name, class_name := cn, path := image_path,
    css := baseTextureCss cn image_path extra_css }

/-- The `RamData` (storage.py:96): the runtime state.  The bounds fields are
declared `int` but receive whatever dynamic value a loaded save supplies,
so they are `Value`-typed like the tile fields. -/
structure RamData where
  tiles : List TileData
  symbols : List (String × SymbolData)
  textures : List (String × TextureData)
  x_start : Value
  x_end : Value
  y_start : Value
  y_end : Value
  save_tile_reference : List (String × Nat)
  held_buttons : List String
  selected_texture : String
  last_save_folder : String
  last_save_name : String

/-- The `RamData.__init__`: empty collections, zero bounds, dummy texture
selected. -/
def RamData.init : RamData :=
  { tiles := [], symbols := [], textures := [],
    x_start := .int 0, x_end := .int 0, y_start := .int 0, y_end := .int 0,
    save_tile_reference := [], held_buttons := [],
    selected_texture := EMPTY_TEXTURE, last_save_folder := "", last_save_name := "" }

/-- Entries of a Python dict value (only applied after an `isinstance`
check has established that the value is a dict). -/
def Value.entries : Value → List (String × Value)
  | .dict kvs => kvs
  | _ => []

/-- The `MapSaveData` (storage.py:248): the save payload. -/
structure MapSaveData where
  tiles : List TileData
  x_start : Value
  x_end : Value
  y_start : Value
  y_end : Value
  symbols : List (String × SymbolData)

/-- Field initialisation of `MapSaveData.__init__`: empty tiles and
symbols, all four bounds zero. -/
def MapSaveData.base : MapSaveData :=
  { tiles := [], x_start := .int 0, x_end := .int 0, y_start := .int 0,
    y_end := .int 0, symbols := [] }

/-- The `MapSaveData.from_dict` (storage.py:265): verify the record, and on
success decode tiles (appended to `self.tiles`), bounds and symbols,
returning `True`; on verification failure leave every field unchanged and
return `False`.  `none` models an exception escaping from a tile or symbol
decode. -/
def MapSaveData.from_dict (m : MapSaveData) (state : Dict) :
    Option (MapSaveData × Bool) :=
  if verify_save_state state then do
    let newTiles ← (dget state "tiles" (.list [])).elems.mapM TileData.ofState
    let newSyms ← (dget state "symbols" (.dict [])).entries.mapM
      (fun p => (SymbolData.init p.1 p.2).map fun s => (p.1, s))
    pure ({ m with
            tiles := m.tiles ++ newTiles,
            x_start := dget state "x_start" (.int 0),
            x_end := dget state "x_end" (.int 0),
            y_start := dget state "y_start" (.int 0),
            y_end := dget state "y_end" (.int 0),
            symbols := newSyms.foldl (fun d p => dictSet d p.1 p.2) m.symbols },
          true)
  else some (m, false)

/-- The `MapSaveData.__init__` with an explicit `state`: field defaults, then
`if state: self.from_dict(state)` with the returned Boolean discarded.
Calling `.get` on a truthy non-dict state raises (`none`). -/
def MapSaveData.ofState (state : Value) : Option MapSaveData :=
  if state.truthy then
    match state with
    | .dict kvs => (MapSaveData.base.from_dict kvs).map Prod.fst
    | _ => Option.none
  else some MapSaveData.base

/-- The `MapSaveData.to_dict` (storage.py:287): bounds, encoded tile list,
encoded symbol dict; `none` models a `get_value` call on an unbound
symbol accessor. -/
def MapSaveData.to_dict (m : MapSaveData) : Option Dict := do
  let rawSyms ← m.symbols.mapM fun p => (p.2.to_dict).map fun d => (p.1, Value.dict d)
  pure [("x_start", m.x_start), ("x_end", m.x_end), ("y_start", m.y_start),
        ("y_end", m.y_end),
        ("tiles", .list (m.tiles.map fun t => Value.dict t.to_dict)),
        ("symbols", .dict rawSyms)]

/-- The x-bound update of `SaveManager.ram_to_disk` (storage.py:352-355):
`if tile.x < map.x_start: ... elif tile.x > map.x_end: ...`; a comparison
on non-numeric values raises `TypeError` (`none`). -/
def boundsStepX (m : MapSaveData) (t : TileData) : Option MapSaveData := do
  let lt ← t.x.ltNum m.x_start
  if lt then pure { m with x_start := t.x }
  else do
    let gt ← t.x.gtNum m.x_end
    if gt then pure { m with x_end := t.x } else pure m

/-- The y-bound update of `SaveManager.ram_to_disk` (storage.py:356-359). -/
def boundsStepY (m : MapSaveData) (t : TileData) : Option MapSaveData := do
  let lt ← t.y.ltNum m.y_start
  if lt then pure { m with y_start := t.y }
  else do
    let gt ← t.y.gtNum m.y_end
    if gt then pure { m with y_end := t.y } else pure m

/-- One iteration of the tile loop of `SaveManager.ram_to_disk`
(storage.py:349-359): skip tiles with a falsy `enabled`; append a truthy
one to the payload's tile list and adjust the bounds. -/
def tileStep (m : MapSaveData) (t : TileData) : Option MapSaveData :=
  if t.enabled.truthy then do
    let m1 := { m with tiles := m.tiles ++ [t] }
    let m2 ← boundsStepX m1 t
    boundsStepY m2 t
  else pure m

/-- One iteration of the symbol loop of `SaveManager.ram_to_disk`
(storage.py:361-364): call the symbol's accessor (raising when unbound)
and keep the symbol when the returned string is truthy (non-empty). -/
def symbolStep (m : MapSaveData) (p : String × SymbolData) : Option MapSaveData := do
  let v ← p.2.get_value
  if v ≠ "" then pure { m with symbols := dictSet m.symbols p.1 p.2 }
  else pure m

/-- The `SaveManager.ram_to_disk` (storage.py:341): build a fresh payload from
the enabled tiles and non-empty symbols of `RamData`.  The runtime state is
threaded through explicitly so the translation shows every write: no
statement of the method assigns to a `RamData` field, so the state comes
back out exactly as it went in.  The second component is the payload that
`to_dict` then serialises to the file (`none` models a raised exception,
in which case nothing is written). -/
def SaveManager.ram_to_disk (ram : RamData) : RamData × Option MapSaveData :=
  (ram, do
    let m1 ← ram.tiles.foldlM tileStep MapSaveData.base
    ram.symbols.foldlM symbolStep m1)

/-- The `f"{tile.x}:{tile.y}"` coordinate key of `SaveManager.disk_to_ram`
(storage.py:390). -/
def tileKey (t : TileData) : String :=
  t.x.pyStr ++ ":" ++ t.y.pyStr

/-- The index-rebuilding loop of `SaveManager.disk_to_ram`
(storage.py:388-390): `for i in range(len(tiles)):
ref[f"{tiles[i].x}:{tiles[i].y}"] = i`. -/
def buildIndexAux (ref : List (String × Nat)) (i : Nat) :
    List TileData → List (String × Nat)
  | [] => ref
  | t :: ts => buildIndexAux (dictSet ref (tileKey t) i) (i + 1) ts

/-- The coordinate index built from a tile list, starting from the cleared
dict (storage.py:387). -/
def buildIndex (tiles : List TileData) : List (String × Nat) :=
  buildIndexAux [] 0 tiles

/-- The `SaveManager.disk_to_ram` (storage.py:369), with the file read and YAML
parse abstracted into the already-parsed value `raw` (`Value.null` models
an empty file, which `yaml.load` returns as `None`).  The method decodes a
`MapSaveData` from `raw` and then unconditionally overwrites the runtime
state's tiles, bounds and symbols with the payload's fields and rebuilds
the coordinate index; `none` models an exception raised during decoding,
which leaves the runtime state untouched because it propagates before the
first assignment. -/
def SaveManager.disk_to_ram (ram : RamData) (raw : Value) : Option RamData :=
  (MapSaveData.ofState raw).map fun msd =>
    { ram with
      tiles := msd.tiles,
      x_start := msd.x_start, x_end := msd.x_end,
      y_start := msd.y_start, y_end := msd.y_end,
      symbols := msd.symbols,
      save_tile_reference := buildIndex msd.tiles }

/-! ### Concrete instances used by individual claims -/

/-- A non-default runtime state: one enabled tile at (5,6), non-zero x
bounds, a non-empty coordinate index. -/
def c1ram : RamData :=
  { RamData.init with
      tiles := [TileData.base (.int 5) (.int 6) (.bool true)],
      x_start := .int 1, x_end := .int 2,
      save_tile_reference := [("5:6", 0)] }

/-- A save record failing payload validation: `x_start = 2 > 1 = x_end`. -/
def c1bad : Value :=
  .dict [("x_start", .int 2), ("x_end", .int 1)]

/-- What `disk_to_ram` actually turns `c1ram` into when fed `c1bad`: the
tiles, bounds and symbols are overwritten with the default-empty payload
and the coordinate index is cleared. -/
def c1after : RamData :=
  { c1ram with
      tiles := [], x_start := .int 0, x_end := .int 0,
      y_start := .int 0, y_end := .int 0, symbols := [],
      save_tile_reference := [] }

/-- The enabled tile of the §8 export scenario: (1,1), tag set {"A"}. -/
def c7tile1 : TileData :=
  { x := .int 1, y := .int 1, tags := .set ["A"], enabled := .bool true,
    texture := .str "" }

/-- The disabled tile of the §8 export scenario: (2,2). -/
def c7tile2 : TileData :=
  { x := .int 2, y := .int 2, tags := .set [], enabled := .bool false,
    texture := .str "" }

/-- The §8 export scenario's runtime state. -/
def c7ram : RamData :=
  { RamData.init with tiles := [c7tile1, c7tile2] }

/-- The payload the §8 export scenario must produce: only the enabled tile,
bounds (0,1,0,1). -/
def c7payload : MapSaveData :=
  { tiles := [c7tile1], x_start := .int 0, x_end := .int 1,
    y_start := .int 0, y_end := .int 1, symbols := [] }

/-- An enabled tile at the origin (used to witness the bound-update rule: a
coordinate inside the current range changes no bound). -/
def c7wTile : TileData :=
  { x := .int 0, y := .int 0, tags := .set [], enabled := .bool true,
    texture := .str "" }

/-- Elements of a Python string-set value. -/
def Value.setElems : Value → List String
  | .set vs => vs
  | _ => []

/-- Whether a dynamic value is the Boolean `True` (the claim's notion of
"the enabled flag is true", as opposed to mere truthiness). -/
def Value.isTrue : Value → Bool
  | .bool b => b
  | _ => false

/-- Numeric value of a little-endian digit-character list (used to invert
`natDigitsLE` when proving the decimal rendering injective). -/
def digitsVal : List Char → Nat
  | [] => 0
  | c :: cs => (c.toNat - 48) + 10 * digitsVal cs

/-- The raw save record of the §8 duplicate-coordinate import scenario: two
tile records both at (3,3). -/
def c8raw : Value :=
  .dict [("tiles", .list [.dict [("x", .int 3), ("y", .int 3)],
                          .dict [("x", .int 3), ("y", .int 3)]])]

/-- The tile both records of `c8raw` decode to (missing `enabled` defaults
to `True` during decode). -/
def c8tile : TileData :=
  { x := .int 3, y := .int 3, tags := .set [], enabled := .bool true,
    texture := .str "" }

/-- The runtime state `disk_to_ram` produces from `c8raw`: two tiles, and a
coordinate index whose single entry "3:3" points at the second tile. -/
def c8ram : RamData :=
  { RamData.init with
      tiles := [c8tile, c8tile],
      save_tile_reference := [("3:3", 1)] }

/-- A tile carrying the tag set {"B"}, used to witness the toggle
involution. -/
def c3tile : TileData :=
  { x := .int 0, y := .int 0, tags := .set ["B"], enabled := .bool true,
    texture := .str "" }

/-- A runtime state with a single disabled tile and no symbols (zero
enabled tiles). -/
def c6ram2 : RamData :=
  { RamData.init with tiles := [c7tile2] }

/-! ### Helper lemmas -/

/-- A key that is not in a dict makes `get` return the default. -/
theorem dget_eq_default (state : Dict) (k : String) (d : Value)
    (h : hasKey state k = false) : dget state k d = d := by
  unfold hasKey at h
  unfold dget
  cases hf : state.find? (fun p => p.1 == k) <;> simp [hf] at h ⊢

/-- The `boundsStepX` changes `x_start` only when `tile.x < x_start`, changes
`x_end` only when `tile.x > x_end`, and touches nothing else. -/
theorem boundsStepX_spec (m m' : MapSaveData) (t : TileData)
    (h : boundsStepX m t = some m') :
    (m'.x_start = m.x_start ∨ t.x.ltNum m.x_start = some true) ∧
    (m'.x_end = m.x_end ∨ t.x.gtNum m.x_end = some true) ∧
    m'.y_start = m.y_start ∧ m'.y_end = m.y_end ∧
    m'.tiles = m.tiles ∧ m'.symbols = m.symbols := by
  unfold boundsStepX at h
  obtain ⟨lt1, hlt1, h⟩ := Option.bind_eq_some.mp h
  by_cases hb : lt1 = true
  · rw [if_pos hb] at h
    simp only [Option.pure_def, Option.some.injEq] at h
    subst h
    exact ⟨Or.inr (by rw [hb] at hlt1; exact hlt1), Or.inl rfl, rfl, rfl, rfl, rfl⟩
  · rw [if_neg hb] at h
    obtain ⟨gt1, hgt1, h⟩ := Option.bind_eq_some.mp h
    by_cases hc : gt1 = true
    · rw [if_pos hc] at h
      simp only [Option.pure_def, Option.some.injEq] at h
      subst h
      exact ⟨Or.inl rfl, Or.inr (by rw [hc] at hgt1; exact hgt1), rfl, rfl, rfl, rfl⟩
    · rw [if_neg hc] at h
      simp only [Option.pure_def, Option.some.injEq] at h
      subst h
      exact ⟨Or.inl rfl, Or.inl rfl, rfl, rfl, rfl, rfl⟩

/-- The `boundsStepY` changes `y_start` only when `tile.y < y_start`, changes
`y_end` only when `tile.y > y_end`, and touches nothing else. -/
theorem boundsStepY_spec (m m' : MapSaveData) (t : TileData)
    (h : boundsStepY m t = some m') :
    (m'.y_start = m.y_start ∨ t.y.ltNum m.y_start = some true) ∧
    (m'.y_end = m.y_end ∨ t.y.gtNum m.y_end = some true) ∧
    m'.x_start = m.x_start ∧ m'.x_end = m.x_end ∧
    m'.tiles = m.tiles ∧ m'.symbols = m.symbols := by
  unfold boundsStepY at h
  obtain ⟨lt1, hlt1, h⟩ := Option.bind_eq_some.mp h
  by_cases hb : lt1 = true
  · rw [if_pos hb] at h
    simp only [Option.pure_def, Option.some.injEq] at h
    subst h
    exact ⟨Or.inr (by rw [hb] at hlt1; exact hlt1), Or.inl rfl, rfl, rfl, rfl, rfl⟩
  · rw [if_neg hb] at h
    obtain ⟨gt1, hgt1, h⟩ := Option.bind_eq_some.mp h
    by_cases hc : gt1 = true
    · rw [if_pos hc] at h
      simp only [Option.pure_def, Option.some.injEq] at h
      subst h
      exact ⟨Or.inl rfl, Or.inr (by rw [hc] at hgt1; exact hgt1), rfl, rfl, rfl, rfl⟩
    · rw [if_neg hc] at h
      simp only [Option.pure_def, Option.some.injEq] at h
      subst h
      exact ⟨Or.inl rfl, Or.inl rfl, rfl, rfl, rfl, rfl⟩

/-- A successful `tileStep` appends the tile exactly when its `enabled` is
truthy, leaves the symbols alone, and adjusts each bound only when the
tile's coordinate is strictly outside the current range on that side. -/
theorem tileStep_spec (m m' : MapSaveData) (t : TileData)
    (h : tileStep m t = some m') :
    m'.tiles = m.tiles ++ (if t.enabled.truthy then [t] else []) ∧
    m'.symbols = m.symbols ∧
    (m'.x_start = m.x_start ∨ t.x.ltNum m.x_start = some true) ∧
    (m'.x_end = m.x_end ∨ t.x.gtNum m.x_end = some true) ∧
    (m'.y_start = m.y_start ∨ t.y.ltNum m.y_start = some true) ∧
    (m'.y_end = m.y_end ∨ t.y.gtNum m.y_end = some true) := by
  unfold tileStep at h
  by_cases he : t.enabled.truthy
  · rw [if_pos he] at h
    obtain ⟨m2, h2, h3⟩ := Option.bind_eq_some.mp h
    obtain ⟨hxs, hxe, hys2, hye2, ht2, hs2⟩ := boundsStepX_spec _ _ _ h2
    obtain ⟨hys, hye, hxs3, hxe3, ht3, hs3⟩ := boundsStepY_spec _ _ _ h3
    rw [if_pos he]
    refine ⟨ht3.trans ht2, hs3.trans hs2, ?_, ?_, ?_, ?_⟩
    · cases hxs with
      | inl hh => exact Or.inl (hxs3.trans hh)
      | inr hh => exact Or.inr hh
    · cases hxe with
      | inl hh => exact Or.inl (hxe3.trans hh)
      | inr hh => exact Or.inr hh
    · cases hys with
      | inl hh => exact Or.inl (hh.trans hys2)
      | inr hh => exact Or.inr (by rw [hys2] at hh; exact hh)
    · cases hye with
      | inl hh => exact Or.inl (hh.trans hye2)
      | inr hh => exact Or.inr (by rw [hye2] at hh; exact hh)
  · rw [if_neg he] at h
    simp only [Option.pure_def, Option.some.injEq] at h
    subst h
    rw [if_neg he]
    exact ⟨(List.append_nil _).symm, rfl, Or.inl rfl, Or.inl rfl, Or.inl rfl,
      Or.inl rfl⟩

/-! ### Claim theorems -/

/-- Claim C1 (code bug): the claim says a save record failing payload
validation leaves every field of the runtime state untouched and reports
the failure to the caller.  The code contradicts this: `disk_to_ram`
ignores the `False` returned by `MapSaveData.from_dict` and unconditionally
overwrites the runtime state's tiles, bounds and symbols with the
default-empty payload and clears the coordinate index.  At the concrete
failing record `{x_start: 2, x_end: 1}` the stored tile list `[tile(5,6)]`
becomes `[]`. -/
theorem import_failure_wipes_state :
    verify_save_state [("x_start", .int 2), ("x_end", .int 1)] = false ∧
    SaveManager.disk_to_ram c1ram c1bad = some c1after ∧
    c1after.tiles = [] ∧ c1after.save_tile_reference = [] ∧
    c1ram.tiles ≠ c1after.tiles := by
  refine ⟨rfl, rfl, rfl, rfl, ?_⟩
  intro h
  simp [c1ram, c1after] at h

/-- Claim C2: `TileData.from_dict` substitutes a default for each missing
field (`x`→0, `y`→0, `enabled`→`True`, `tags`→empty set, `texture`→empty
string), while a brand-new tile built by the GUI constructor call
`TileData(x, y)` has `enabled = False` — the asymmetry between the two
`enabled` defaults is preserved. -/
theorem tile_decode_defaults :
    (∀ (t : TileData) (state : Dict),
      (hasKey state "x" = false → (t.from_dict state).x = .int 0) ∧
      (hasKey state "y" = false → (t.from_dict state).y = .int 0) ∧
      (hasKey state "enabled" = false → (t.from_dict state).enabled = .bool true) ∧
      (hasKey state "tags" = false → (t.from_dict state).tags = .set []) ∧
      (hasKey state "texture" = false → (t.from_dict state).texture = .str "")) ∧
    ∀ x y : Value, (TileData.new x y).enabled = .bool false :=
  ⟨fun _t state =>
    ⟨fun h => dget_eq_default state "x" (.int 0) h,
     fun h => dget_eq_default state "y" (.int 0) h,
     fun h => dget_eq_default state "enabled" (.bool true) h,
     fun h => dget_eq_default state "tags" (.set []) h,
     fun h => dget_eq_default state "texture" (.str "") h⟩,
   fun _ _ => rfl⟩

/-- Witness for C2 at the empty record and a concrete new tile. -/
theorem tile_decode_defaults_witness :
    ((TileData.new (.int 0) (.int 0)).from_dict []).x = .int 0 ∧
    ((TileData.new (.int 0) (.int 0)).from_dict []).y = .int 0 ∧
    ((TileData.new (.int 0) (.int 0)).from_dict []).enabled = .bool true ∧
    ((TileData.new (.int 0) (.int 0)).from_dict []).tags = .set [] ∧
    ((TileData.new (.int 0) (.int 0)).from_dict []).texture = .str "" ∧
    (TileData.new (.int 7) (.int 8)).enabled = .bool false :=
  ⟨(tile_decode_defaults.1 _ []).1 rfl,
   (tile_decode_defaults.1 _ []).2.1 rfl,
   (tile_decode_defaults.1 _ []).2.2.1 rfl,
   (tile_decode_defaults.1 _ []).2.2.2.1 rfl,
   (tile_decode_defaults.1 _ []).2.2.2.2 rfl,
   tile_decode_defaults.2 (.int 7) (.int 8)⟩

/-- Claim C4: encoding a tile with `to_dict` and decoding the produced
record with `TileData(state=...)` reproduces the tile exactly — in
particular the same `x`, `y`, `enabled`, `texture` and the same tag set. -/
theorem tile_encode_decode_roundtrip (t : TileData) :
    TileData.ofState (.dict t.to_dict) = some t := by
  cases t
  rfl

/-- Claim C5: the validator `verify_save_state` fails whenever
`x_start > x_end` or `y_start > y_end` (a missing bound counting as 0, and
Python `bool` bounds counting as their int value); it accepts the encoding
of the default all-zero payload, and the empty record where every field is
missing; and it accepts a payload with the `tiles` key omitted entirely. -/
theorem verify_save_state_spec :
    (∀ state : Dict,
      ((dget state "x_start" (.int 0)).asInt > (dget state "x_end" (.int 0)).asInt ∨
       (dget state "y_start" (.int 0)).asInt > (dget state "y_end" (.int 0)).asInt) →
      verify_save_state state = false) ∧
    (∀ d : Dict, MapSaveData.base.to_dict = some d → verify_save_state d = true) ∧
    verify_save_state [] = true ∧
    (hasKey [("x_start", Value.int 1), ("x_end", Value.int 3)] "tiles" = false ∧
     verify_save_state [("x_start", Value.int 1), ("x_end", Value.int 3)] = true) := by
  refine ⟨fun state h => ?_,
    fun d hd => by
      have : d = [("x_start", Value.int 0), ("x_end", Value.int 0),
          ("y_start", Value.int 0), ("y_end", Value.int 0),
          ("tiles", Value.list []), ("symbols", Value.dict [])] :=
        Option.some_inj.mp ((rfl : MapSaveData.base.to_dict = _).symm.trans hd).symm
      rw [this]
      rfl,
    rfl, rfl, rfl⟩
  rcases h with h | h
  · simp only [verify_save_state]
    rw [decide_eq_false (not_le.mpr h)]
    simp
  · simp only [verify_save_state]
    rw [decide_eq_false (not_le.mpr h)]
    simp

/-- Witness for C5: the record `{x_start: 2, x_end: 1}` is rejected, and
the encoded default payload is accepted. -/
theorem verify_save_state_spec_witness :
    verify_save_state [("x_start", Value.int 2), ("x_end", Value.int 1)] = false ∧
    verify_save_state [("x_start", Value.int 0), ("x_end", Value.int 0),
      ("y_start", Value.int 0), ("y_end", Value.int 0),
      ("tiles", Value.list []), ("symbols", Value.dict [])] = true :=
  ⟨verify_save_state_spec.1 [("x_start", Value.int 2), ("x_end", Value.int 1)]
    (Or.inl (by decide)),
   verify_save_state_spec.2.1 _ rfl⟩

/-- Claim C7: the export payload's bounds start at (0,0,0,0); the per-tile
update of `ram_to_disk` adjusts a bound only when the collected tile's
coordinate is strictly outside the current `[start, end]` range on that
side; and on the concrete runtime state with tiles (1,1,enabled,{"A"}) and
(2,2,disabled) the export payload is exactly the single enabled tile with
`x_start = 0`, `x_end = 1`, `y_start = 0`, `y_end = 1`. -/
theorem export_bounds_quirk :
    (MapSaveData.base.x_start = Value.int 0 ∧ MapSaveData.base.x_end = Value.int 0 ∧
     MapSaveData.base.y_start = Value.int 0 ∧ MapSaveData.base.y_end = Value.int 0) ∧
    (∀ (m m' : MapSaveData) (t : TileData), tileStep m t = some m' →
      (m'.x_start = m.x_start ∨ t.x.ltNum m.x_start = some true) ∧
      (m'.x_end = m.x_end ∨ t.x.gtNum m.x_end = some true) ∧
      (m'.y_start = m.y_start ∨ t.y.ltNum m.y_start = some true) ∧
      (m'.y_end = m.y_end ∨ t.y.gtNum m.y_end = some true)) ∧
    (SaveManager.ram_to_disk c7ram).2 = some c7payload := by
  refine ⟨⟨rfl, rfl, rfl, rfl⟩, fun m m' t h => ?_, rfl⟩
  obtain ⟨-, -, hxs, hxe, hys, hye⟩ := tileStep_spec _ _ _ h
  exact ⟨hxs, hxe, hys, hye⟩

/-- Witness for C7's bound-update rule at a tile inside the current range:
no bound changes. -/
theorem export_bounds_quirk_witness :
    ({ MapSaveData.base with tiles := [c7wTile] } : MapSaveData).x_start =
        MapSaveData.base.x_start ∨
      c7wTile.x.ltNum MapSaveData.base.x_start = some true :=
  (export_bounds_quirk.2.1 MapSaveData.base
    { MapSaveData.base with tiles := [c7wTile] } c7wTile rfl).1

/-- Claim C9: a falsy tile record (the empty mapping, or any other falsy
value) in the tiles list never reaches `TileData.from_dict`: the
constructor skips field population and the tile keeps the constructor
defaults `x = 0`, `y = 0`, empty tags, empty texture and — unlike the
documented missing-field default `True` — `enabled = False`.  The last
conjunct shows a whole-payload decode of `{tiles: [{}]}` producing exactly
that default tile. -/
theorem falsy_tile_record_defaults :
    (∀ v : Value, v.truthy = false →
      TileData.ofState v = some (TileData.base (.int 0) (.int 0) (.bool false))) ∧
    (TileData.base (.int 0) (.int 0) (.bool false)).enabled = Value.bool false ∧
    MapSaveData.ofState (.dict [("tiles", .list [.dict []])]) =
      some { MapSaveData.base with
               tiles := [TileData.base (.int 0) (.int 0) (.bool false)] } := by
  refine ⟨fun v h => ?_, rfl, rfl⟩
  simp [TileData.ofState, TileData.init, h]

/-- Witness for C9 at the empty mapping (which is falsy in Python). -/
theorem falsy_tile_record_defaults_witness :
    TileData.ofState (.dict []) =
      some (TileData.base (.int 0) (.int 0) (.bool false)) :=
  falsy_tile_record_defaults.1 (.dict []) rfl

/-- Toggling one tag flips exactly that tag's membership (for a
duplicate-free tag set, as Python sets always are). -/
theorem mem_toggleTag (ts : List String) (a s : String) (h : ts.Nodup) :
    s ∈ toggleTag ts a ↔ (if s = a then a ∉ ts else s ∈ ts) := by
  unfold toggleTag
  by_cases ha : a ∈ ts
  · rw [if_pos ha]
    by_cases hsa : s = a
    · subst hsa
      simp [ha, h.mem_erase_iff]
    · simp [hsa, List.mem_erase_of_ne hsa]
  · rw [if_neg ha]
    by_cases hsa : s = a
    · subst hsa
      simp [ha]
    · simp [hsa, ha]

/-- Toggling preserves duplicate-freeness. -/
theorem nodup_toggleTag (ts : List String) (a : String) (h : ts.Nodup) :
    (toggleTag ts a).Nodup := by
  unfold toggleTag
  by_cases ha : a ∈ ts
  · rw [if_pos ha]
    exact h.erase a
  · rw [if_neg ha]
    simp [List.nodup_append, h, ha]

/-- Applying a duplicate-free letter list toggles membership of exactly the
letters in the list: an element is in the result iff it was in exactly one
of the original tag set and the letter list. -/
theorem mem_applyLetterTagsList (L ts : List String) (hts : ts.Nodup)
    (hL : L.Nodup) (s : String) :
    s ∈ applyLetterTagsList ts L ↔ Xor' (s ∈ ts) (s ∈ L) := by
  induction L generalizing ts with
  | nil =>
    simp [applyLetterTagsList, Xor']
  | cons a L ih =>
    obtain ⟨ha, hL'⟩ := List.nodup_cons.mp hL
    have hstep : applyLetterTagsList ts (a :: L) =
        applyLetterTagsList (toggleTag ts a) L := rfl
    rw [hstep, ih (toggleTag ts a) (nodup_toggleTag ts a hts) hL']
    have hmem := mem_toggleTag ts a s hts
    by_cases hsa : s = a
    · subst hsa
      simp only [hmem, if_pos rfl]
      have hsL : s ∉ L := ha
      simp [Xor', hsL]
    · simp only [hmem, if_neg hsa]
      simp [Xor', hsa]

/-- The `applyLetterTagsList` preserves duplicate-freeness. -/
theorem nodup_applyLetterTagsList (L ts : List String) (hts : ts.Nodup) :
    (applyLetterTagsList ts L).Nodup := by
  induction L generalizing ts with
  | nil => exact hts
  | cons a L ih => exact ih (toggleTag ts a) (nodup_toggleTag ts a hts)

/-- Claim C3: for every tile whose tag set is a (duplicate-free) string set
and every non-empty duplicate-free letter list, applying
`apply_letter_tags` with the same letters twice in succession returns the
tag set to its original value (set equality: same membership). -/
theorem apply_letter_tags_involution (t : TileData) (ts L : List String)
    (htags : t.tags = .set ts) (hts : ts.Nodup) (hL : L.Nodup) (_hne : L ≠ []) :
    (t.apply_letter_tags L).bind (fun v => v.apply_letter_tags L) =
      some { t with
               tags := .set (applyLetterTagsList (applyLetterTagsList ts L) L) } ∧
    ∀ s : String, s ∈ applyLetterTagsList (applyLetterTagsList ts L) L ↔ s ∈ ts := by
  constructor
  · rw [TileData.apply_letter_tags, htags]
    rfl
  · intro s
    rw [mem_applyLetterTagsList L _ (nodup_applyLetterTagsList L ts hts) hL s,
      mem_applyLetterTagsList L ts hts hL s]
    rcases Classical.em (s ∈ ts) with h1 | h1 <;>
      rcases Classical.em (s ∈ L) with h2 | h2 <;> simp [Xor', h1, h2]

/-- Witness for C3: toggling {"A","B"} twice on a tile tagged {"B"}. -/
theorem apply_letter_tags_involution_witness :
    (c3tile.apply_letter_tags ["A", "B"]).bind
        (fun v => v.apply_letter_tags ["A", "B"]) =
      some { c3tile with
               tags := .set (applyLetterTagsList
                 (applyLetterTagsList ["B"] ["A", "B"]) ["A", "B"]) } ∧
    ("B" ∈ applyLetterTagsList (applyLetterTagsList ["B"] ["A", "B"]) ["A", "B"] ↔
      "B" ∈ ["B"]) :=
  ⟨(apply_letter_tags_involution c3tile ["B"] ["A", "B"] rfl (by decide)
      (by decide) (by decide)).1,
   ⟨fun _ => by decide,
    fun _ => ((apply_letter_tags_involution c3tile ["B"] ["A", "B"] rfl (by decide)
      (by decide) (by decide)).2 "B").mpr (by decide)⟩⟩

/-- The tile loop of `ram_to_disk` collects, in order, exactly the tiles
with truthy `enabled`, and never touches the symbols. -/
theorem foldlM_tileStep_tiles (ts : List TileData) (m0 m : MapSaveData)
    (h : ts.foldlM tileStep m0 = some m) :
    m.tiles = m0.tiles ++ ts.filter (fun t => t.enabled.truthy) ∧
    m.symbols = m0.symbols := by
  induction ts generalizing m0 with
  | nil =>
    simp only [List.foldlM_nil, Option.pure_def, Option.some.injEq] at h
    subst h
    simp
  | cons t ts ih =>
    rw [List.foldlM_cons] at h
    obtain ⟨m1, h1, h2⟩ := Option.bind_eq_some.mp h
    obtain ⟨ht1, hs1, -, -, -, -⟩ := tileStep_spec _ _ _ h1
    obtain ⟨ht, hs⟩ := ih m1 h2
    refine ⟨?_, hs.trans hs1⟩
    rw [ht, ht1]
    by_cases he : t.enabled.truthy <;> simp [he, List.filter_cons]

/-- The tile loop is a no-op when every tile's `enabled` is falsy. -/
theorem foldlM_tileStep_all_disabled (ts : List TileData) (m0 : MapSaveData)
    (h : ∀ t ∈ ts, t.enabled.truthy = false) :
    ts.foldlM tileStep m0 = some m0 := by
  induction ts with
  | nil => rfl
  | cons t ts ih =>
    rw [List.foldlM_cons]
    have ht : t.enabled.truthy = false := h t (List.mem_cons_self t ts)
    have : tileStep m0 t = some m0 := by
      unfold tileStep
      rw [ht]
      rfl
    rw [this]
    exact ih (fun u hu => h u (List.mem_cons_of_mem t hu))

/-- One symbol-loop iteration never touches the tiles or the bounds. -/
theorem symbolStep_frame (m m' : MapSaveData) (p : String × SymbolData)
    (h : symbolStep m p = some m') :
    m'.tiles = m.tiles ∧ m'.x_start = m.x_start ∧ m'.x_end = m.x_end ∧
    m'.y_start = m.y_start ∧ m'.y_end = m.y_end := by
  unfold symbolStep at h
  obtain ⟨v, hv, h⟩ := Option.bind_eq_some.mp h
  by_cases hne : v ≠ ""
  · rw [if_pos hne] at h
    simp only [Option.pure_def, Option.some.injEq] at h
    subst h
    exact ⟨rfl, rfl, rfl, rfl, rfl⟩
  · rw [if_neg hne] at h
    simp only [Option.pure_def, Option.some.injEq] at h
    subst h
    exact ⟨rfl, rfl, rfl, rfl, rfl⟩

/-- The symbol loop never touches the tiles or the bounds. -/
theorem foldlM_symbolStep_frame (ps : List (String × SymbolData))
    (m0 m : MapSaveData) (h : ps.foldlM symbolStep m0 = some m) :
    m.tiles = m0.tiles ∧ m.x_start = m0.x_start ∧ m.x_end = m0.x_end ∧
    m.y_start = m0.y_start ∧ m.y_end = m0.y_end := by
  induction ps generalizing m0 with
  | nil =>
    simp only [List.foldlM_nil, Option.pure_def, Option.some.injEq] at h
    subst h
    exact ⟨rfl, rfl, rfl, rfl, rfl⟩
  | cons p ps ih =>
    rw [List.foldlM_cons] at h
    obtain ⟨m1, h1, h2⟩ := Option.bind_eq_some.mp h
    obtain ⟨a1, b1, c1, d1, e1⟩ := symbolStep_frame _ _ _ h1
    obtain ⟨a, b, c, d, e⟩ := ih m1 h2
    exact ⟨a.trans a1, b.trans b1, c.trans c1, d.trans d1, e.trans e1⟩

/-- The symbol loop succeeds whenever every symbol has a bound accessor. -/
theorem foldlM_symbolStep_total (ps : List (String × SymbolData))
    (m0 : MapSaveData) (h : ∀ p ∈ ps, p.2.get_value_func.isSome) :
    ∃ m, ps.foldlM symbolStep m0 = some m := by
  induction ps generalizing m0 with
  | nil => exact ⟨m0, rfl⟩
  | cons p ps ih =>
    rw [List.foldlM_cons]
    obtain ⟨v, hv⟩ := Option.isSome_iff_exists.mp (h p (List.mem_cons_self p ps))
    have hstep : ∃ m1, symbolStep m0 p = some m1 := by
      unfold symbolStep
      rw [SymbolData.get_value, hv]
      by_cases hne : v ≠ ""
      · refine ⟨{ m0 with symbols := dictSet m0.symbols p.1 p.2 }, ?_⟩
        show (if v ≠ "" then
            (pure { m0 with symbols := dictSet m0.symbols p.1 p.2 } : Option MapSaveData)
          else pure m0) = _
        rw [if_pos hne]
        rfl
      · refine ⟨m0, ?_⟩
        show (if v ≠ "" then
            (pure { m0 with symbols := dictSet m0.symbols p.1 p.2 } : Option MapSaveData)
          else pure m0) = some m0
        rw [if_neg hne]
        rfl
    obtain ⟨m1, hm1⟩ := hstep
    rw [hm1]
    exact ih m1 (fun q hq => h q (List.mem_cons_of_mem p hq))

/-- Claim C6: a successful export collects exactly the tiles whose enabled
flag is (the Boolean) `True` — assuming the runtime state's tiles are
well-typed (Boolean `enabled`), as the data model declares — and a runtime
state with zero enabled tiles (and bound symbol accessors, so the export
can run) exports bounds (0,0,0,0) and an empty tile list. -/
theorem export_collects_enabled :
    (∀ (ram : RamData) (m : MapSaveData),
      (∀ t ∈ ram.tiles, ∃ b, t.enabled = Value.bool b) →
      (SaveManager.ram_to_disk ram).2 = some m →
      m.tiles = ram.tiles.filter (fun t => t.enabled.isTrue)) ∧
    (∀ ram : RamData,
      (∀ t ∈ ram.tiles, t.enabled.truthy = false) →
      (∀ p ∈ ram.symbols, p.2.get_value_func.isSome) →
      ∃ m, (SaveManager.ram_to_disk ram).2 = some m ∧ m.tiles = [] ∧
        m.x_start = Value.int 0 ∧ m.x_end = Value.int 0 ∧
        m.y_start = Value.int 0 ∧ m.y_end = Value.int 0) := by
  constructor
  · intro ram m hwt h
    simp only [SaveManager.ram_to_disk] at h
    obtain ⟨m1, h1, h2⟩ := Option.bind_eq_some.mp h
    obtain ⟨ht1, -⟩ := foldlM_tileStep_tiles _ _ _ h1
    obtain ⟨ht, -, -, -, -⟩ := foldlM_symbolStep_frame _ _ _ h2
    rw [ht, ht1]
    simp only [MapSaveData.base, List.nil_append]
    refine List.filter_congr ?_
    intro t htm
    obtain ⟨b, hb⟩ := hwt t htm
    rw [hb]
    cases b <;> rfl
  · intro ram hdis hsym
    have h1 : ram.tiles.foldlM tileStep MapSaveData.base = some MapSaveData.base :=
      foldlM_tileStep_all_disabled _ _ hdis
    obtain ⟨m, hm⟩ := foldlM_symbolStep_total ram.symbols MapSaveData.base hsym
    refine ⟨m, ?_, ?_⟩
    · simp only [SaveManager.ram_to_disk]
      rw [h1]
      exact hm
    · obtain ⟨ht, hb1, hb2, hb3, hb4⟩ := foldlM_symbolStep_frame _ _ _ hm
      exact ⟨ht, hb1, hb2, hb3, hb4⟩

/-- Witness for C6: the two-tile state `c7ram` (one enabled, one disabled)
exports exactly the enabled tile, and the zero-enabled state `c6ram2`
exports the default payload. -/
theorem export_collects_enabled_witness :
    c7payload.tiles = c7ram.tiles.filter (fun t => t.enabled.isTrue) ∧
    (SaveManager.ram_to_disk c6ram2).2 = some MapSaveData.base :=
  ⟨export_collects_enabled.1 c7ram c7payload
    (by
      intro t ht
      simp only [c7ram, List.mem_cons, List.not_mem_nil, or_false] at ht
      rcases ht with rfl | rfl
      · exact ⟨true, rfl⟩
      · exact ⟨false, rfl⟩) rfl,
   by
    obtain ⟨m, hm, -, -, -, -, -⟩ := export_collects_enabled.2 c6ram2
      (by
        intro t ht
        simp only [c6ram2, List.mem_cons, List.not_mem_nil, or_false] at ht
        rcases ht with rfl
        rfl)
      (by intro p hp; simp [c6ram2, RamData.init] at hp)
    have hb : m = MapSaveData.base := by
      have hsome : some m = some MapSaveData.base := hm.symm.trans rfl
      exact Option.some_inj.mp hsome
    rw [hb] at hm
    exact hm⟩

/-- Claim C10: `ram_to_disk` never writes to the runtime state — the state
threaded through the translation comes back exactly as it went in, for
every runtime state (all fields included: tiles, bounds, symbols, textures,
coordinate index, held letters, selected texture). -/
theorem export_preserves_ram (ram : RamData) :
    (SaveManager.ram_to_disk ram).1 = ram := rfl

/-- The `digitChar` of a decimal digit has the expected character code. -/
theorem digitChar_toNat (d : Nat) (h : d < 10) : (digitChar d).toNat = 48 + d := by
  interval_cases d <;> rfl

/-- The `digitsVal` inverts `natDigitsLE` when the fuel suffices. -/
theorem digitsVal_natDigitsLE (fuel : Nat) :
    ∀ n : Nat, n ≤ fuel → digitsVal (natDigitsLE fuel n) = n := by
  induction fuel with
  | zero =>
    intro n hn
    have h0 : n = 0 := Nat.le_zero.mp hn
    subst h0
    rfl
  | succ fuel ih =>
    intro n hn
    cases n with
    | zero => rfl
    | succ k =>
      simp only [natDigitsLE, digitsVal]
      have hd : (k + 1) % 10 < 10 := Nat.mod_lt _ (by norm_num)
      rw [digitChar_toNat _ hd]
      have hlt : (k + 1) / 10 < k + 1 := Nat.div_lt_self (Nat.succ_pos k) (by norm_num)
      rw [ih _ (by omega)]
      omega

/-- Every character produced by `natDigitsLE` is a decimal digit. -/
theorem mem_natDigitsLE (fuel : Nat) :
    ∀ (n : Nat) (c : Char), c ∈ natDigitsLE fuel n → ∃ d, d < 10 ∧ c = digitChar d := by
  induction fuel with
  | zero =>
    intro n c h
    cases n <;> simp [natDigitsLE] at h
  | succ fuel ih =>
    intro n c h
    cases n with
    | zero => simp [natDigitsLE] at h
    | succ k =>
      simp only [natDigitsLE] at h
      rcases List.mem_cons.mp h with h1 | h1
      · exact ⟨(k + 1) % 10, Nat.mod_lt _ (by norm_num), h1⟩
      · exact ih _ _ h1

/-- Decimal digit characters are not `-`. -/
theorem digitChar_ne_dash (d : Nat) (h : d < 10) : digitChar d ≠ '-' := by
  interval_cases d <;> decide

/-- Decimal digit characters are not `:`. -/
theorem digitChar_ne_colon (d : Nat) (h : d < 10) : digitChar d ≠ ':' := by
  interval_cases d <;> decide

/-- Underlying characters of `pyNatRepr`. -/
theorem pyNatRepr_data (n : Nat) :
    (pyNatRepr n).data = if n = 0 then ['0'] else (natDigitsLE n n).reverse := by
  unfold pyNatRepr
  by_cases h : n = 0
  · rw [if_pos h, if_pos h]
  · rw [if_neg h, if_neg h]
    rfl

/-- Every character of `pyNatRepr` is a decimal digit. -/
theorem mem_pyNatRepr (n : Nat) (c : Char) (h : c ∈ (pyNatRepr n).data) :
    ∃ d, d < 10 ∧ c = digitChar d := by
  rw [pyNatRepr_data] at h
  by_cases h0 : n = 0
  · rw [if_pos h0] at h
    have hc : c = '0' := List.mem_singleton.mp h
    exact ⟨0, by norm_num, hc⟩
  · rw [if_neg h0] at h
    exact mem_natDigitsLE n n c (List.mem_reverse.mp h)

/-- The decimal rendering of naturals is injective. -/
theorem pyNatRepr_inj (a b : Nat) (h : (pyNatRepr a).data = (pyNatRepr b).data) :
    a = b := by
  rw [pyNatRepr_data, pyNatRepr_data] at h
  by_cases ha : a = 0 <;> by_cases hb : b = 0
  · exact ha.trans hb.symm
  · rw [if_pos ha, if_neg hb] at h
    have hrev : natDigitsLE b b = ['0'] := by
      have := congrArg List.reverse h
      simpa using this.symm
    have hv := digitsVal_natDigitsLE b b le_rfl
    rw [hrev] at hv
    have : (0 : Nat) = b := by simpa [digitsVal] using hv
    exact absurd this.symm hb
  · rw [if_neg ha, if_pos hb] at h
    have hrev : natDigitsLE a a = ['0'] := by
      have := congrArg List.reverse h
      simpa using this
    have hv := digitsVal_natDigitsLE a a le_rfl
    rw [hrev] at hv
    have : (0 : Nat) = a := by simpa [digitsVal] using hv
    exact absurd this.symm ha
  · rw [if_neg ha, if_neg hb] at h
    have hrev : natDigitsLE a a = natDigitsLE b b := by
      have := congrArg List.reverse h
      simpa using this
    have ha' := digitsVal_natDigitsLE a a le_rfl
    have hb' := digitsVal_natDigitsLE b b le_rfl
    rw [hrev] at ha'
    exact ha'.symm.trans hb'

/-- The colon never occurs in a rendered int. -/
theorem colon_not_mem_pyIntRepr (i : Int) : ':' ∉ (pyIntRepr i).data := by
  unfold pyIntRepr
  by_cases h : i < 0
  · rw [if_pos h, String.data_append]
    intro hmem
    rcases List.mem_append.mp hmem with h1 | h1
    · exact absurd (List.mem_singleton.mp h1) (by decide)
    · obtain ⟨d, hd, hc⟩ := mem_pyNatRepr _ _ h1
      exact absurd hc.symm (digitChar_ne_colon d hd)
  · rw [if_neg h]
    intro hmem
    obtain ⟨d, hd, hc⟩ := mem_pyNatRepr _ _ hmem
    exact absurd hc.symm (digitChar_ne_colon d hd)

/-- The decimal rendering of ints is injective. -/
theorem pyIntRepr_inj (a b : Int) (h : (pyIntRepr a).data = (pyIntRepr b).data) :
    a = b := by
  unfold pyIntRepr at h
  by_cases ha : a < 0 <;> by_cases hb : b < 0
  · rw [if_pos ha, if_pos hb, String.data_append, String.data_append] at h
    have htail : (pyNatRepr a.natAbs).data = (pyNatRepr b.natAbs).data := by
      have h2 : '-' :: (pyNatRepr a.natAbs).data =
          '-' :: (pyNatRepr b.natAbs).data := h
      simpa using h2
    have := pyNatRepr_inj _ _ htail
    omega
  · rw [if_pos ha, if_neg hb, String.data_append] at h
    have hhead : '-' ∈ (pyNatRepr b.toNat).data := by
      rw [← h]
      exact List.mem_cons_self _ _
    obtain ⟨d, hd, hc⟩ := mem_pyNatRepr _ _ hhead
    exact absurd hc.symm (digitChar_ne_dash d hd)
  · rw [if_neg ha, if_pos hb, String.data_append] at h
    have hhead : '-' ∈ (pyNatRepr a.toNat).data := by
      rw [h]
      exact List.mem_cons_self _ _
    obtain ⟨d, hd, hc⟩ := mem_pyNatRepr _ _ hhead
    exact absurd hc.symm (digitChar_ne_dash d hd)
  · rw [if_neg ha, if_neg hb] at h
    have := pyNatRepr_inj _ _ h
    omega

/-- Splitting at a colon is unambiguous when neither left part contains a
colon. -/
theorem append_colon_inj (l₁ : List Char) :
    ∀ (l₂ r₁ r₂ : List Char), ':' ∉ l₁ → ':' ∉ l₂ →
      l₁ ++ ':' :: r₁ = l₂ ++ ':' :: r₂ → l₁ = l₂ ∧ r₁ = r₂ := by
  induction l₁ with
  | nil =>
    intro l₂ r₁ r₂ _ h₂ h
    cases l₂ with
    | nil => simpa using h
    | cons c l₂ =>
      injection h with hc _
      exact absurd (by rw [hc]; exact List.mem_cons_self _ _) h₂
  | cons c l₁ ih =>
    intro l₂ r₁ r₂ h₁ h₂ h
    cases l₂ with
    | nil =>
      injection h with hc _
      exact absurd (by rw [← hc]; exact List.mem_cons_self _ _) h₁
    | cons c' l₂ =>
      injection h with hc htl
      have h₁' : ':' ∉ l₁ := fun hm => h₁ (List.mem_cons_of_mem _ hm)
      have h₂' : ':' ∉ l₂ := fun hm => h₂ (List.mem_cons_of_mem _ hm)
      obtain ⟨he, hr⟩ := ih l₂ r₁ r₂ h₁' h₂' htl
      exact ⟨by rw [hc, he], hr⟩

/-- The coordinate key of a tile with int coordinates. -/
theorem tileKey_int (t : TileData) (a b : Int) (hx : t.x = .int a)
    (hy : t.y = .int b) : tileKey t = pyIntRepr a ++ ":" ++ pyIntRepr b := by
  unfold tileKey
  rw [hx, hy]
  rfl

/-- The coordinate key determines both int coordinates. -/
theorem intKey_inj (a b c d : Int)
    (h : pyIntRepr a ++ ":" ++ pyIntRepr b = pyIntRepr c ++ ":" ++ pyIntRepr d) :
    a = c ∧ b = d := by
  have hd := congrArg String.data h
  rw [String.data_append, String.data_append, String.data_append,
    String.data_append, List.append_assoc, List.append_assoc] at hd
  obtain ⟨h1, h2⟩ := append_colon_inj _ _ _ _
    (colon_not_mem_pyIntRepr a) (colon_not_mem_pyIntRepr c) hd
  exact ⟨pyIntRepr_inj _ _ h1, pyIntRepr_inj _ _ h2⟩

/-- Lookup after a Python dict assignment. -/
theorem dictFind_dictSet {α : Type} (kvs : List (String × α)) (k k' : String)
    (v : α) :
    dictFind (dictSet kvs k v) k' = if k' = k then some v else dictFind kvs k' := by
  induction kvs with
  | nil =>
    by_cases h : k' = k
    · rw [if_pos h]
      subst h
      simp [dictSet, dictFind]
    · rw [if_neg h]
      simp only [dictSet, dictFind, List.find?]
      rw [show ((k == k') = false) from by simpa using fun hk => h hk.symm]
  | cons p rest ih =>
    by_cases hp : p.1 = k
    · simp only [dictSet, if_pos hp]
      by_cases h : k' = k
      · rw [if_pos h]
        subst h
        simp [dictFind, List.find?]
      · rw [if_neg h]
        have hpk : ¬ (p.1 == k') := by
          rw [hp]
          simpa using fun hk => h hk.symm
        simp only [dictFind, List.find?]
        rw [show ((k == k') = false) from by simpa using fun hk => h hk.symm]
        rw [show ((p.1 == k') = false) from by simpa using hpk]
    · simp only [dictSet, if_neg hp]
      by_cases hk' : p.1 = k'
      · simp only [dictFind, List.find?, show ((p.1 == k') = true) from by simpa using hk']
        rw [if_neg (fun hkk => hp (hk'.trans hkk))]
      · simp only [dictFind, List.find?, show ((p.1 == k') = false) from by simpa using hk']
        exact ih

/-- Keys present after a Python dict assignment. -/
theorem mem_keys_dictSet {α : Type} (kvs : List (String × α)) (k k' : String)
    (v : α) :
    k' ∈ (dictSet kvs k v).map Prod.fst ↔ k' ∈ kvs.map Prod.fst ∨ k' = k := by
  induction kvs with
  | nil => simp [dictSet]
  | cons p rest ih =>
    by_cases hp : p.1 = k
    · simp only [dictSet, if_pos hp, List.map_cons, List.mem_cons, ih]
      rw [hp]
      tauto
    · simp only [dictSet, if_neg hp, List.map_cons, List.mem_cons, ih]
      tauto

/-- Dict assignment preserves key uniqueness. -/
theorem nodup_keys_dictSet {α : Type} (kvs : List (String × α)) (k : String)
    (v : α) (h : (kvs.map Prod.fst).Nodup) :
    ((dictSet kvs k v).map Prod.fst).Nodup := by
  induction kvs with
  | nil => simp [dictSet]
  | cons p rest ih =>
    obtain ⟨hp, hrest⟩ := List.nodup_cons.mp h
    by_cases hpk : p.1 = k
    · simp only [dictSet, if_pos hpk, List.map_cons, List.nodup_cons]
      exact ⟨by rw [← hpk]; simpa using hp, hrest⟩
    · simp only [dictSet, if_neg hpk, List.map_cons, List.nodup_cons]
      refine ⟨?_, ih hrest⟩
      intro hmem
      rcases (mem_keys_dictSet rest k p.1 v).mp hmem with hmem' | hmem'
      · exact hp (by simpa using hmem')
      · exact hpk hmem'

/-- Keys of the rebuilt coordinate index: the starting dict's keys plus a
key for every tile. -/
theorem keys_buildIndexAux (ts : List TileData) :
    ∀ (ref : List (String × Nat)) (i : Nat) (k : String),
      (k ∈ (buildIndexAux ref i ts).map Prod.fst ↔
        k ∈ ref.map Prod.fst ∨ k ∈ ts.map tileKey) := by
  induction ts with
  | nil => intro ref i k; simp [buildIndexAux]
  | cons t ts ih =>
    intro ref i k
    simp only [buildIndexAux, ih, mem_keys_dictSet, List.map_cons, List.mem_cons]
    tauto

/-- The rebuilt coordinate index never holds a key twice. -/
theorem nodup_keys_buildIndexAux (ts : List TileData) :
    ∀ (ref : List (String × Nat)) (i : Nat),
      (ref.map Prod.fst).Nodup → ((buildIndexAux ref i ts).map Prod.fst).Nodup := by
  induction ts with
  | nil => intro ref i h; exact h
  | cons t ts ih =>
    intro ref i h
    exact ih _ _ (nodup_keys_dictSet ref (tileKey t) i h)

/-- Index lookup of a key no remaining tile produces. -/
theorem dictFind_buildIndexAux_not_mem (ts : List TileData) :
    ∀ (ref : List (String × Nat)) (i : Nat) (k : String),
      k ∉ ts.map tileKey →
      dictFind (buildIndexAux ref i ts) k = dictFind ref k := by
  induction ts with
  | nil => intro ref i k _; rfl
  | cons t ts ih =>
    intro ref i k hk
    have hk1 : k ≠ tileKey t := fun he => hk (by rw [he]; simp)
    have hk2 : k ∉ ts.map tileKey := fun hm => hk (by simp [hm])
    simp only [buildIndexAux]
    rw [ih _ _ _ hk2, dictFind_dictSet, if_neg hk1]

/-- Index lookup of the key of a tile with no later equal-key tile: the
last write wins, so the lookup returns that tile's position. -/
theorem dictFind_buildIndexAux_last (ts : List TileData) :
    ∀ (ref : List (String × Nat)) (i m : Nat) (hm : m < ts.length),
      (∀ (j : Nat) (hj : j < ts.length), m < j →
        tileKey (ts.get ⟨j, hj⟩) ≠ tileKey (ts.get ⟨m, hm⟩)) →
      dictFind (buildIndexAux ref i ts) (tileKey (ts.get ⟨m, hm⟩)) = some (i + m) := by
  induction ts with
  | nil => intro ref i m hm _; exact absurd hm (Nat.not_lt_zero m)
  | cons t ts ih =>
    intro ref i m hm hlast
    cases m with
    | zero =>
      have hnot : tileKey t ∉ ts.map tileKey := by
        intro hmem
        obtain ⟨u, hu, hk⟩ := List.mem_map.mp hmem
        obtain ⟨⟨j, hj⟩, hjget⟩ := List.mem_iff_get.mp hu
        refine hlast (j + 1) (Nat.succ_lt_succ hj) (Nat.succ_pos j) ?_
        show tileKey (ts.get ⟨j, hj⟩) = tileKey t
        rw [hjget, hk]
      simp only [buildIndexAux]
      have hkey : tileKey ((t :: ts).get ⟨0, hm⟩) = tileKey t := rfl
      rw [hkey, dictFind_buildIndexAux_not_mem ts _ _ _ hnot,
        dictFind_dictSet, if_pos rfl, Nat.add_zero]
    | succ m' =>
      have hm' : m' < ts.length := Nat.lt_of_succ_lt_succ hm
      have hlast' : ∀ (j : Nat) (hj : j < ts.length), m' < j →
          tileKey (ts.get ⟨j, hj⟩) ≠ tileKey (ts.get ⟨m', hm'⟩) := by
        intro j hj hgt
        exact hlast (j + 1) (Nat.succ_lt_succ hj) (Nat.succ_lt_succ hgt)
      have := ih (dictSet ref (tileKey t) i) (i + 1) m' hm' hlast'
      simp only [buildIndexAux]
      have harith : i + 1 + m' = i + (m' + 1) := by omega
      rw [← harith]
      exact this

/-- A successful import rebuilds the coordinate index from exactly the tile
list it installs. -/
theorem disk_to_ram_index (ram : RamData) (raw : Value) (ram' : RamData)
    (h : SaveManager.disk_to_ram ram raw = some ram') :
    ram'.save_tile_reference = buildIndex ram'.tiles := by
  unfold SaveManager.disk_to_ram at h
  obtain ⟨msd, _, h2⟩ := Option.map_eq_some'.mp h
  subst h2
  rfl

/-- Claim C8: after every successful import whose loaded tiles carry int
coordinates (as the data model declares), the coordinate index (i) holds no
key twice, (ii) holds exactly the set of `"x:y"` keys occurring in the
loaded tile list, (iii) two loaded tiles produce the same key exactly when
they have the same `(x, y)` — so the index has one entry per unique
coordinate — and (iv) looking up the key of a tile position with no later
occurrence of the same `(x, y)` yields exactly that position: for a
duplicated coordinate, the last occurrence silently wins. -/
theorem import_index_spec (ram : RamData) (raw : Value) (ram' : RamData)
    (h : SaveManager.disk_to_ram ram raw = some ram')
    (hint : ∀ t ∈ ram'.tiles, (∃ a, t.x = Value.int a) ∧ ∃ b, t.y = Value.int b) :
    (ram'.save_tile_reference.map Prod.fst).Nodup ∧
    (∀ k : String, k ∈ ram'.save_tile_reference.map Prod.fst ↔
      k ∈ ram'.tiles.map tileKey) ∧
    (∀ (i j : Nat) (hi : i < ram'.tiles.length) (hj : j < ram'.tiles.length),
      (tileKey (ram'.tiles.get ⟨i, hi⟩) = tileKey (ram'.tiles.get ⟨j, hj⟩) ↔
        ((ram'.tiles.get ⟨i, hi⟩).x = (ram'.tiles.get ⟨j, hj⟩).x ∧
         (ram'.tiles.get ⟨i, hi⟩).y = (ram'.tiles.get ⟨j, hj⟩).y))) ∧
    (∀ (i : Nat) (hi : i < ram'.tiles.length),
      (∀ (j : Nat) (hj : j < ram'.tiles.length), i < j →
        ¬((ram'.tiles.get ⟨j, hj⟩).x = (ram'.tiles.get ⟨i, hi⟩).x ∧
          (ram'.tiles.get ⟨j, hj⟩).y = (ram'.tiles.get ⟨i, hi⟩).y)) →
      dictFind ram'.save_tile_reference (tileKey (ram'.tiles.get ⟨i, hi⟩)) =
        some i) := by
  have href := disk_to_ram_index ram raw ram' h
  have hkeyiff : ∀ (i j : Nat) (hi : i < ram'.tiles.length)
      (hj : j < ram'.tiles.length),
      (tileKey (ram'.tiles.get ⟨i, hi⟩) = tileKey (ram'.tiles.get ⟨j, hj⟩) ↔
        ((ram'.tiles.get ⟨i, hi⟩).x = (ram'.tiles.get ⟨j, hj⟩).x ∧
         (ram'.tiles.get ⟨i, hi⟩).y = (ram'.tiles.get ⟨j, hj⟩).y)) := by
    intro i j hi hj
    obtain ⟨⟨a, hxa⟩, ⟨b, hyb⟩⟩ := hint _ (List.get_mem ram'.tiles i hi)
    obtain ⟨⟨c, hxc⟩, ⟨d, hyd⟩⟩ := hint _ (List.get_mem ram'.tiles j hj)
    constructor
    · intro hk
      rw [tileKey_int _ a b hxa hyb, tileKey_int _ c d hxc hyd] at hk
      obtain ⟨h1, h2⟩ := intKey_inj a b c d hk
      rw [hxa, hxc, hyb, hyd, h1, h2]
      exact ⟨rfl, rfl⟩
    · rintro ⟨h1, h2⟩
      unfold tileKey
      rw [h1, h2]
  refine ⟨?_, ?_, hkeyiff, ?_⟩
  · rw [href]
    exact nodup_keys_buildIndexAux ram'.tiles [] 0 List.nodup_nil
  · intro k
    rw [href]
    rw [show buildIndex ram'.tiles = buildIndexAux [] 0 ram'.tiles from rfl]
    rw [keys_buildIndexAux]
    simp
  · intro i hi hlast
    rw [href]
    have hlast' : ∀ (j : Nat) (hj : j < ram'.tiles.length), i < j →
        tileKey (ram'.tiles.get ⟨j, hj⟩) ≠ tileKey (ram'.tiles.get ⟨i, hi⟩) := by
      intro j hj hgt hkeq
      exact hlast j hj hgt ((hkeyiff j i hj hi).mp hkeq)
    have hstep := dictFind_buildIndexAux_last ram'.tiles [] 0 i hi hlast'
    rw [Nat.zero_add] at hstep
    exact hstep

/-- Witness for C8: importing two tile records both at (3,3) leaves the
index entry "3:3" pointing at position 1, the second tile. -/
theorem import_index_spec_witness :
    dictFind c8ram.save_tile_reference
      (tileKey (c8ram.tiles.get ⟨1, by decide⟩)) = some 1 := by
  refine (import_index_spec RamData.init c8raw c8ram rfl ?_).2.2.2 1 (by decide) ?_
  · intro t ht
    simp only [c8ram, List.mem_cons, List.not_mem_nil, or_false] at ht
    rcases ht with rfl | rfl
    · exact ⟨⟨3, rfl⟩, ⟨3, rfl⟩⟩
    · exact ⟨⟨3, rfl⟩, ⟨3, rfl⟩⟩
  · intro j hj hgt
    have hj2 : j < 2 := by simpa [c8ram] using hj
    exact absurd hgt (by omega)

end SGM
